import Mathlib

/-!
Shallow embedding of `web.py`, a Streamlit document-section browser.

The program's core logic consists of:
* `parse_data_detail` — parses the `data_detail.txt` manifest (one section per
  line, fields separated by `#`) into section records;
* `get_page_numbers` — expands a section record into its list of page numbers;
* the sub-section filter inside `main` — selects the sections nested in a
  chosen main section;
* `initialize_session_state` — the single piece of session state;
* the presentation loops inside `main` — iterate the resolved pages, build
  file paths `./data/page_NNN.pdf`, skip missing files and invoke the
  renderer / text extractor at in-file page index 0;
* `pymupdf_parse_page` / `pymupdf_render_page_as_image` — thin wrappers over
  the PDF library, modelled here over an abstract file system
  `String → Option PdfDoc`.

Python strings that the program manipulates character by character are
modelled as `List Char`; Python `int` is `Int`; Python `range`, `str.strip`,
`str.split` and `int(...)` are reproduced below (ASCII fragment of `int(...)`:
optional sign followed by decimal digits, surrounded by optional whitespace).
-/

namespace Web

/-- Python ASCII whitespace as recognised by `str.strip()`. -/
def isPySpace (c : Char) : Bool :=
  c == ' ' || c == '\t' || c == '\n' || c == '\r' || c == '\x0b' || c == '\x0c'

/-- Python `str.strip()` on a character list: drop whitespace at both ends. -/
def pyStrip (l : List Char) : List Char :=
  ((l.dropWhile isPySpace).reverse.dropWhile isPySpace).reverse

/-- Python `str.split(sep)` for a one-character separator, keeping empty
fields; `''.split(sep) = ['']`. -/
def pySplit (sep : Char) : List Char → List (List Char)
  | [] => [[]]
  | c :: cs =>
    if c == sep then [] :: pySplit sep cs
    else
      match pySplit sep cs with
      | [] => [[c]]
      | f :: r => (c :: f) :: r

/-- Accumulate the decimal value of a digit string; `none` on a non-digit. -/
def digitsValAux : Nat → List Char → Option Nat
  | acc, [] => some acc
  | acc, c :: cs =>
    if c.isDigit then digitsValAux (10 * acc + (c.toNat - 48)) cs else none

/-- Value of a non-empty all-digit string, else `none`. -/
def digitsVal (cs : List Char) : Option Nat :=
  match cs with
  | [] => none
  | _ => digitsValAux 0 cs

/-- Python `int(s)` (ASCII fragment): strip whitespace, optional sign,
decimal digits; `none` models the `ValueError` that `int` raises. -/
def pyInt (s : List Char) : Option Int :=
  match pyStrip s with
  | '-' :: cs => (digitsVal cs).map (fun n => -(n : Int))
  | '+' :: cs => (digitsVal cs).map (fun n => (n : Int))
  | cs => (digitsVal cs).map (fun n => (n : Int))

/-- A section record as built by `parse_data_detail`: `start` and `end` page
bounds and a `name`. -/
structure Section where
  start : Int
  «end» : Int
  name : List Char
deriving DecidableEq, Repr, Inhabited

/-- The loop body of `parse_data_detail` over the manifest's lines.  A blank
line or a line with fewer than three `#`-separated fields is skipped with a
warning; otherwise `int(parts[0])` / `int(parts[1])` are taken — if either
raises `ValueError` the exception is caught by the surrounding
`except Exception`, which aborts the loop and returns the sections
accumulated so far (here: the records consed before the abort). -/
def parse_data_detail : List (List Char) → List Section
  | [] => []
  | l :: rest =>
    let s := pyStrip l
    if s.isEmpty then parse_data_detail rest
    else
      let parts := pySplit '#' s
      if parts.length < 3 then parse_data_detail rest
      else
        match pyInt (parts.getD 0 []), pyInt (parts.getD 1 []) with
        | some a, some b => ⟨a, b, pyStrip (parts.getD 2 [])⟩ :: parse_data_detail rest
        | _, _ => []

/-- A manifest line that the loop body of `parse_data_detail` skips with
`continue`: blank after stripping, or fewer than three `#`-separated fields. -/
def line_skipped (l : List Char) : Bool :=
  (pyStrip l).isEmpty || decide ((pySplit '#' (pyStrip l)).length < 3)

/-- A manifest line on which `parse_data_detail` raises inside the loop:
not skipped, but `int(parts[0])` or `int(parts[1])` raises `ValueError`. -/
def line_aborts (l : List Char) : Bool :=
  !line_skipped l &&
    ((pyInt ((pySplit '#' (pyStrip l)).getD 0 [])).isNone ||
      (pyInt ((pySplit '#' (pyStrip l)).getD 1 [])).isNone)

/-- Python `range(a, b)` as a list of integers. -/
def pyRange (a b : Int) : List Int :=
  (List.range (b - a).toNat).map (fun i : Nat => a + (i : Int))

/-- `get_page_numbers(section)` = `list(range(section['start'], section['end'] + 1))`. -/
def get_page_numbers (s : Section) : List Int :=
  pyRange s.start (s.«end» + 1)

/-- Streamlit session state, modelled as an association list keyed by field
name (all fields the program stores are integers). -/
abbrev SessionState := List (String × Int)

/-- `initialize_session_state(total_pages=0)`: store `total_pages` in the
session state only when the field is not already present. -/
def initialize_session_state (st : SessionState) (total_pages : Int := 0) : SessionState :=
  if (List.lookup "total_pages" st).isSome then st
  else st ++ [("total_pages", total_pages)]

/-- The sub-section filter of `main`: sections whose `start` lies between the
selected main section's `start` and `end` (the candidate's own `end` is not
consulted). -/
def sub_sections_of (m : Section) (sections : List Section) : List Section :=
  sections.filter (fun s => decide (s.start ≥ m.start) && decide (s.start ≤ m.«end»))

/-- Left-pad a string with `'0'` up to width `w`. -/
def zfill (w : Nat) (s : String) : String :=
  String.mk (List.replicate (w - s.length) '0') ++ s

/-- Python `f"{n:03}"`: zero-pad to total width 3, sign included. -/
def pad3 (n : Int) : String :=
  if n < 0 then "-" ++ zfill 2 (toString n.natAbs) else zfill 3 (toString n.natAbs)

/-- `pdf_filename = f"page_{page_num:03}.pdf"`. -/
def pdf_filename (page_num : Int) : String :=
  "page_" ++ pad3 page_num ++ ".pdf"

/-- `pdf_path = os.path.join(data_dir, pdf_filename)` with `data_dir = "./data"`. -/
def pdf_path (page_num : Int) : String :=
  "./data/" ++ pdf_filename page_num

/-- One invocation of `pymupdf_render_page_as_image` made by the main loop. -/
structure RenderCall where
  path : String
  page_number : Int
  zoom : Rat
deriving DecidableEq, Repr

/-- One invocation of `pymupdf_parse_page` made by the sidebar loop. -/
structure ParseCall where
  path : String
  page_number : Int
deriving DecidableEq, Repr

/-- The main presentation loop (`for page_num in page_numbers` rendering
images): for each page, build `pdf_path`; when `os.path.isfile` fails,
`continue` to the next page; otherwise invoke
`pymupdf_render_page_as_image(pdf_path, page_number=0, zoom=zoom_factor)`.
`isFile` abstracts the file-system check; the result lists the calls made,
in order. -/
def image_loop_calls (isFile : String → Bool) (zoom_factor : Rat) : List Int → List RenderCall
  | [] => []
  | n :: rest =>
    if isFile (pdf_path n) then
      ⟨pdf_path n, 0, zoom_factor⟩ :: image_loop_calls isFile zoom_factor rest
    else image_loop_calls isFile zoom_factor rest

/-- The sidebar per-page loop: for each page, build `pdf_path`; when the file
is missing, `continue`; otherwise invoke `pymupdf_parse_page(pdf_path)` with
the page-number argument left at its default. -/
def sidebar_loop_calls (isFile : String → Bool) : List Int → List ParseCall
  | [] => []
  | n :: rest =>
    if isFile (pdf_path n) then
      ⟨pdf_path n, 0⟩ :: sidebar_loop_calls isFile rest
    else sidebar_loop_calls isFile rest

/-- Abstract model of one page of a PDF document: its extracted text, and its
pixmap rendering at a given zoom (`none` models `get_pixmap`/`tobytes`
raising). -/
structure PdfPage where
  text : List Char
  pixmap : Rat → Option (List Nat)

instance : Inhabited PdfPage := ⟨⟨[], fun _ => none⟩⟩

/-- Abstract model of a PDF document: its list of pages (`page_count` is the
list's length). -/
structure PdfDoc where
  pages : List PdfPage

/-- `pymupdf_parse_page(pdf_path, page_number=0)` over an abstract file
system `fs` (`fs path = none` models `fitz.open` raising).  Out-of-range page
numbers and open failures return `""`; otherwise the page's text is truncated
to 230000 characters. -/
def pymupdf_parse_page (fs : String → Option PdfDoc) (pdfPath : String)
    (page_number : Int := 0) : List Char :=
  match fs pdfPath with
  | none => []
  | some file =>
    if page_number < 0 ∨ (file.pages.length : Int) ≤ page_number then []
    else ((file.pages.getD page_number.toNat default).text).take 230000

/-- `pymupdf_render_page_as_image(pdf_path, page_number=0, zoom=1.5)` over an
abstract file system.  Open failures, out-of-range page numbers and pixmap
conversion failures all return `b""`. -/
def pymupdf_render_page_as_image (fs : String → Option PdfDoc) (pdfPath : String)
    (page_number : Int := 0) (zoom : Rat := 3 / 2) : List Nat :=
  match fs pdfPath with
  | none => []
  | some doc =>
    if page_number < 0 ∨ (doc.pages.length : Int) ≤ page_number then []
    else
      match (doc.pages.getD page_number.toNat default).pixmap zoom with
      | none => []
      | some img_bytes => img_bytes

/-! ### Helper lemmas -/

theorem length_pyRange (a b : Int) : (pyRange a b).length = (b - a).toNat := by
  unfold pyRange
  rw [List.length_map, List.length_range]

theorem mem_pyRange {a b n : Int} : n ∈ pyRange a b ↔ a ≤ n ∧ n < b := by
  unfold pyRange
  rw [List.mem_map]
  constructor
  · rintro ⟨i, hi, rfl⟩
    rw [List.mem_range] at hi
    omega
  · rintro ⟨h1, h2⟩
    exact ⟨(n - a).toNat, List.mem_range.mpr (by omega), by omega⟩

theorem pyRange_pairwise (a b : Int) : List.Pairwise (· < ·) (pyRange a b) := by
  refine List.pairwise_map.mpr ?_
  refine (List.pairwise_lt_range _).imp ?_
  intro i j h
  omega

theorem pyRange_getElem? (a b : Int) (i : Nat) (hi : i < (pyRange a b).length) :
    (pyRange a b)[i]? = some (a + (i : Int)) := by
  rw [length_pyRange] at hi
  unfold pyRange
  rw [List.getElem?_map, List.getElem?_range hi]
  rfl

theorem pymupdf_parse_page_none {fs : String → Option PdfDoc} {p : String}
    (n : Int) (h : fs p = none) : pymupdf_parse_page fs p n = [] := by
  unfold pymupdf_parse_page
  rw [h]

theorem pymupdf_parse_page_some {fs : String → Option PdfDoc} {p : String}
    (n : Int) {doc : PdfDoc} (h : fs p = some doc) :
    pymupdf_parse_page fs p n =
      if n < 0 ∨ (doc.pages.length : Int) ≤ n then []
      else ((doc.pages.getD n.toNat default).text).take 230000 := by
  unfold pymupdf_parse_page
  rw [h]

theorem pymupdf_render_none {fs : String → Option PdfDoc} {p : String}
    (n : Int) (z : Rat) (h : fs p = none) :
    pymupdf_render_page_as_image fs p n z = [] := by
  unfold pymupdf_render_page_as_image
  rw [h]

theorem pymupdf_render_some {fs : String → Option PdfDoc} {p : String}
    (n : Int) (z : Rat) {doc : PdfDoc} (h : fs p = some doc) :
    pymupdf_render_page_as_image fs p n z =
      if n < 0 ∨ (doc.pages.length : Int) ≤ n then []
      else
        match (doc.pages.getD n.toNat default).pixmap z with
        | none => []
        | some img_bytes => img_bytes := by
  unfold pymupdf_render_page_as_image
  rw [h]

theorem lookup_append_single_ne (l : SessionState) (k k' : String) (v : Int)
    (h : k' ≠ k) : List.lookup k' (l ++ [(k, v)]) = List.lookup k' l := by
  induction l with
  | nil =>
    rw [List.nil_append, List.lookup_cons, beq_false_of_ne h]
  | cons p t ih =>
    obtain ⟨a, b⟩ := p
    rw [List.cons_append, List.lookup_cons, List.lookup_cons]
    cases k' == a with
    | true => rfl
    | false => exact ih

theorem lookup_append_single_self (l : SessionState) (k : String) (v : Int) :
    (List.lookup k (l ++ [(k, v)])).isSome := by
  induction l with
  | nil => simp [List.lookup]
  | cons p t ih =>
    obtain ⟨a, b⟩ := p
    rw [List.cons_append, List.lookup_cons]
    cases k == a with
    | true => rfl
    | false => exact ih

theorem parse_cons_blank {l : List Char} (rest : List (List Char))
    (h : pyStrip l = []) :
    parse_data_detail (l :: rest) = parse_data_detail rest := by
  simp [parse_data_detail, h]

theorem parse_cons_few {l : List Char} (rest : List (List Char))
    (h : (pySplit '#' (pyStrip l)).length < 3) :
    parse_data_detail (l :: rest) = parse_data_detail rest := by
  simp [parse_data_detail, h]

theorem parse_cons_record {l : List Char} (rest : List (List Char)) {a b : Int}
    (ha : pyInt ((pySplit '#' (pyStrip l)).getD 0 []) = some a)
    (hb : pyInt ((pySplit '#' (pyStrip l)).getD 1 []) = some b)
    (hlen : 3 ≤ (pySplit '#' (pyStrip l)).length) :
    parse_data_detail (l :: rest)
      = ⟨a, b, pyStrip ((pySplit '#' (pyStrip l)).getD 2 [])⟩ :: parse_data_detail rest := by
  have hnb : pyStrip l ≠ [] := by
    intro hcon
    rw [hcon] at hlen
    exact absurd hlen (by decide)
  simp only [parse_data_detail]
  rw [if_neg (fun hc => hnb (List.isEmpty_iff.mp hc)), if_neg (Nat.not_lt.mpr hlen), ha, hb]

theorem parse_cons_abort {l : List Char} (rest : List (List Char))
    (h : line_aborts l = true) :
    parse_data_detail (l :: rest) = [] := by
  have hns : line_skipped l = false := by
    unfold line_aborts at h
    cases hsk : line_skipped l
    · rfl
    · rw [hsk] at h
      simp at h
  have hnone : (pyInt ((pySplit '#' (pyStrip l)).getD 0 [])).isNone = true ∨
      (pyInt ((pySplit '#' (pyStrip l)).getD 1 [])).isNone = true := by
    unfold line_aborts at h
    rw [hns] at h
    simpa using h
  have hnb : pyStrip l ≠ [] := by
    intro hcon
    unfold line_skipped at hns
    rw [hcon] at hns
    simp at hns
  have hlen : ¬ (pySplit '#' (pyStrip l)).length < 3 := by
    intro hcon
    unfold line_skipped at hns
    rw [decide_eq_true hcon] at hns
    simp at hns
  simp only [parse_data_detail]
  rw [if_neg (fun hc => hnb (List.isEmpty_iff.mp hc)), if_neg hlen]
  rcases hnone with h0 | h1
  · cases hp0 : pyInt ((pySplit '#' (pyStrip l)).getD 0 []) with
    | none => rfl
    | some a => rw [hp0] at h0; simp at h0
  · cases hp1 : pyInt ((pySplit '#' (pyStrip l)).getD 1 []) with
    | none => cases pyInt ((pySplit '#' (pyStrip l)).getD 0 []) <;> rfl
    | some b => rw [hp1] at h1; simp at h1

theorem line_skipped_false_of {l : List Char} (hb : pyStrip l ≠ [])
    (hf : ¬ (pySplit '#' (pyStrip l)).length < 3) : line_skipped l = false := by
  unfold line_skipped
  rw [decide_eq_false hf]
  cases hse : (pyStrip l).isEmpty
  · rfl
  · exact absurd (List.isEmpty_iff.mp hse) hb

theorem line_aborts_true_of {l : List Char} (hb : pyStrip l ≠ [])
    (hf : ¬ (pySplit '#' (pyStrip l)).length < 3)
    (h : pyInt ((pySplit '#' (pyStrip l)).getD 0 []) = none ∨
      pyInt ((pySplit '#' (pyStrip l)).getD 1 []) = none) :
    line_aborts l = true := by
  unfold line_aborts
  rw [line_skipped_false_of hb hf]
  rcases h with h0 | h1
  · rw [h0]
    rfl
  · rw [h1]
    cases pyInt ((pySplit '#' (pyStrip l)).getD 0 []) <;> rfl

theorem parse_cons_no_abort {l : List Char} (rest : List (List Char))
    (h : line_aborts l = false) :
    parse_data_detail (l :: rest)
      = parse_data_detail [l] ++ parse_data_detail rest := by
  by_cases hb : pyStrip l = []
  · rw [parse_cons_blank rest hb, parse_cons_blank [] hb]
    rfl
  · by_cases hf : (pySplit '#' (pyStrip l)).length < 3
    · rw [parse_cons_few rest hf, parse_cons_few [] hf]
      rfl
    · have hsk : line_skipped l = false := by
        unfold line_skipped
        rw [decide_eq_false hf]
        cases hse : (pyStrip l).isEmpty
        · rfl
        · exact absurd (List.isEmpty_iff.mp hse) hb
      have hboth : (pyInt ((pySplit '#' (pyStrip l)).getD 0 [])).isNone = false ∧
          (pyInt ((pySplit '#' (pyStrip l)).getD 1 [])).isNone = false := by
        unfold line_aborts at h
        rw [hsk] at h
        simpa using h
      have hsome : ∃ a, pyInt ((pySplit '#' (pyStrip l)).getD 0 []) = some a := by
        cases hp : pyInt ((pySplit '#' (pyStrip l)).getD 0 []) with
        | none => rw [hp] at hboth; simp at hboth
        | some a => exact ⟨a, rfl⟩
      have hsome' : ∃ b, pyInt ((pySplit '#' (pyStrip l)).getD 1 []) = some b := by
        cases hp : pyInt ((pySplit '#' (pyStrip l)).getD 1 []) with
        | none => rw [hp] at hboth; simp at hboth
        | some b => exact ⟨b, rfl⟩
      obtain ⟨a, ha⟩ := hsome
      obtain ⟨b, hbv⟩ := hsome'
      rw [parse_cons_record rest ha hbv (by omega), parse_cons_record [] ha hbv (by omega)]
      rfl

theorem parse_append_no_abort {pre : List (List Char)} (tl : List (List Char))
    (H : ∀ l ∈ pre, line_aborts l = false) :
    parse_data_detail (pre ++ tl) = parse_data_detail pre ++ parse_data_detail tl := by
  induction pre with
  | nil => rfl
  | cons l pre' ih =>
    have hl : line_aborts l = false := H l (List.mem_cons_self l pre')
    have H' : ∀ l' ∈ pre', line_aborts l' = false :=
      fun l' hl' => H l' (List.mem_cons_of_mem l hl')
    rw [List.cons_append, parse_cons_no_abort (pre' ++ tl) hl, ih H',
      parse_cons_no_abort pre' hl, List.append_assoc]

/-! ### Claims -/

/-- C1: for every section record whose `start` is at most its `end`,
`get_page_numbers` returns the consecutive integers from `start` to `end`
inclusive of both endpoints (characterised by membership, strict sortedness
and elementwise value), and its length equals `end - start + 1`. -/
theorem get_page_numbers_spec (s : Section) (h : s.start ≤ s.«end») :
    ((get_page_numbers s).length : Int) = s.«end» - s.start + 1 ∧
    (∀ n : Int, n ∈ get_page_numbers s ↔ s.start ≤ n ∧ n ≤ s.«end») ∧
    List.Pairwise (· < ·) (get_page_numbers s) ∧
    ∀ i : Nat, i < (get_page_numbers s).length →
      (get_page_numbers s)[i]? = some (s.start + (i : Int)) := by
  refine ⟨?_, ?_, pyRange_pairwise _ _, fun i hi => pyRange_getElem? _ _ i hi⟩
  · rw [show get_page_numbers s = pyRange s.start (s.«end» + 1) from rfl, length_pyRange]
    omega
  · intro n
    rw [show get_page_numbers s = pyRange s.start (s.«end» + 1) from rfl, mem_pyRange]
    omega

/-- Witness for C1 at the concrete section `⟨2, 4, "A"⟩`. -/
theorem get_page_numbers_spec_witness :
    ((get_page_numbers ⟨2, 4, ['A']⟩).length : Int) = 4 - 2 + 1 :=
  (get_page_numbers_spec ⟨2, 4, ['A']⟩ (by decide)).1

/-- C2: a manifest line that strips to non-empty, splits on `#` into at
least three fields, and whose first two fields parse as integers contributes
exactly one record `⟨int(field0), int(field1), strip(field2)⟩` when the loop
reaches it; a blank line, or a line with fewer than three fields, contributes
no record. -/
theorem parse_data_detail_line_behavior (l : List Char) (rest : List (List Char)) :
    (pyStrip l = [] → parse_data_detail (l :: rest) = parse_data_detail rest) ∧
    ((pySplit '#' (pyStrip l)).length < 3 →
      parse_data_detail (l :: rest) = parse_data_detail rest) ∧
    (∀ a b : Int, pyInt ((pySplit '#' (pyStrip l)).getD 0 []) = some a →
      pyInt ((pySplit '#' (pyStrip l)).getD 1 []) = some b →
      3 ≤ (pySplit '#' (pyStrip l)).length →
      parse_data_detail (l :: rest)
        = ⟨a, b, pyStrip ((pySplit '#' (pyStrip l)).getD 2 [])⟩ :: parse_data_detail rest) :=
  ⟨fun h => parse_cons_blank rest h,
   fun h => parse_cons_few rest h,
   fun _ _ ha hb hlen => parse_cons_record rest ha hb hlen⟩

/-- Witness for C2: a blank line contributes nothing, and the line
`"1#2# A "` contributes the record `⟨1, 2, "A"⟩`. -/
theorem parse_data_detail_line_behavior_witness :
    parse_data_detail ["  ".toList, "1#2# A ".toList] = parse_data_detail ["1#2# A ".toList] ∧
    parse_data_detail ["1#2# A ".toList] = [⟨1, 2, ['A']⟩] :=
  ⟨(parse_data_detail_line_behavior "  ".toList ["1#2# A ".toList]).1 (by decide),
   (parse_data_detail_line_behavior "1#2# A ".toList []).2.2 1 2 (by decide) (by decide)
     (by decide)⟩

/-- C3 counterexample: the parser performs no validation of the bounds, so
the manifest line `"5#3#X"` produces a record with `start > end`. -/
theorem parse_data_detail_start_le_end_counterexample :
    ¬ ∀ s ∈ parse_data_detail ["5#3#X".toList], s.start ≤ s.«end» := by
  decide

/-- C3 (amended): a record produced by the parser satisfies `start ≤ end`
exactly when its source line's first two integer fields do — the parser
itself never enforces the invariant. -/
theorem parse_data_detail_start_le_end_of_lines (lines : List (List Char))
    (H : ∀ l ∈ lines, ∀ a b : Int,
      pyInt ((pySplit '#' (pyStrip l)).getD 0 []) = some a →
      pyInt ((pySplit '#' (pyStrip l)).getD 1 []) = some b → a ≤ b) :
    ∀ s ∈ parse_data_detail lines, s.start ≤ s.«end» := by
  induction lines with
  | nil =>
    intro s hs
    exact absurd hs (by simp [parse_data_detail])
  | cons l rest ih =>
    have Hl := H l (List.mem_cons_self l rest)
    have Hr : ∀ l' ∈ rest, ∀ a b : Int,
        pyInt ((pySplit '#' (pyStrip l')).getD 0 []) = some a →
        pyInt ((pySplit '#' (pyStrip l')).getD 1 []) = some b → a ≤ b :=
      fun l' h' => H l' (List.mem_cons_of_mem l h')
    by_cases hb : pyStrip l = []
    · rw [parse_cons_blank rest hb]
      exact ih Hr
    · by_cases hf : (pySplit '#' (pyStrip l)).length < 3
      · rw [parse_cons_few rest hf]
        exact ih Hr
      · cases hp0 : pyInt ((pySplit '#' (pyStrip l)).getD 0 []) with
        | none =>
          rw [parse_cons_abort rest (line_aborts_true_of hb hf (Or.inl hp0))]
          intro s hs
          exact absurd hs (List.not_mem_nil s)
        | some a =>
          cases hp1 : pyInt ((pySplit '#' (pyStrip l)).getD 1 []) with
          | none =>
            rw [parse_cons_abort rest (line_aborts_true_of hb hf (Or.inr hp1))]
            intro s hs
            exact absurd hs (List.not_mem_nil s)
          | some b =>
            rw [parse_cons_record rest hp0 hp1 (by omega)]
            intro s hs
            rcases List.mem_cons.mp hs with rfl | hs'
            · exact Hl a b hp0 hp1
            · exact ih Hr s hs'

/-- Witness for C3 (amended) on the single well-ordered line `"1#2#A"`. -/
theorem parse_data_detail_start_le_end_witness :
    (⟨1, 2, ['A']⟩ : Section).start ≤ (⟨1, 2, ['A']⟩ : Section).«end» :=
  parse_data_detail_start_le_end_of_lines ["1#2#A".toList]
    (by
      intro l hl a b ha hb
      rw [List.mem_singleton] at hl
      subst hl
      have ha' : (some (1 : Int) : Option Int) = some a := ha
      have hb' : (some (2 : Int) : Option Int) = some b := hb
      injection ha' with ha''
      injection hb' with hb''
      omega)
    ⟨1, 2, ['A']⟩ (by decide)

/-- C8: when a line has at least three `#`-separated fields but one of its
first two fields does not parse as an integer, the `int(...)` call raises,
the surrounding handler aborts the loop, and only the records accumulated
from the earlier (non-raising) lines are returned. -/
theorem parse_data_detail_abort_behavior (pre : List (List Char)) (l : List Char)
    (rest : List (List Char)) (hpre : ∀ l' ∈ pre, line_aborts l' = false)
    (hl : line_aborts l = true) :
    parse_data_detail (pre ++ l :: rest) = parse_data_detail pre := by
  rw [parse_append_no_abort (l :: rest) hpre, parse_cons_abort rest hl,
    List.append_nil]

/-- Witness for C8: the bad line `"x#9#B"` stops the parse; the later good
line `"3#4#C"` contributes nothing. -/
theorem parse_data_detail_abort_behavior_witness :
    parse_data_detail ["1#2#A".toList, "x#9#B".toList, "3#4#C".toList]
      = parse_data_detail ["1#2#A".toList] :=
  parse_data_detail_abort_behavior ["1#2#A".toList] "x#9#B".toList ["3#4#C".toList]
    (by decide) (by decide)

/-- C4: a section `x` is offered as a sub-section of the selected main
section `m` exactly when `m.start ≤ x.start ≤ m.end`; the candidate's own
`end` bound plays no role (replacing every candidate's `end` commutes with
the filter). -/
theorem sub_sections_iff (m x : Section) (l : List Section) :
    (x ∈ sub_sections_of m l ↔ x ∈ l ∧ m.start ≤ x.start ∧ x.start ≤ m.«end») ∧
    (∀ e : Int, sub_sections_of m (l.map (fun s => { s with «end» := e }))
        = (sub_sections_of m l).map (fun s => { s with «end» := e })) := by
  constructor
  · simp [sub_sections_of, List.mem_filter, ge_iff_le, and_assoc]
  · intro e
    unfold sub_sections_of
    rw [List.filter_map]
    exact congrArg _ (List.filter_congr (fun x _ => rfl))

theorem image_loop_calls_eq (isFile : String → Bool) (z : Rat) (pages : List Int) :
    image_loop_calls isFile z pages
      = (pages.filter (fun n => isFile (pdf_path n))).map
          (fun n => ⟨pdf_path n, 0, z⟩) := by
  induction pages with
  | nil => rfl
  | cons n rest ih =>
    simp only [image_loop_calls, List.filter_cons]
    by_cases h : isFile (pdf_path n) <;> simp [h, ih]

theorem sidebar_loop_calls_eq (isFile : String → Bool) (pages : List Int) :
    sidebar_loop_calls isFile pages
      = (pages.filter (fun n => isFile (pdf_path n))).map (fun n => ⟨pdf_path n, 0⟩) := by
  induction pages with
  | nil => rfl
  | cons n rest ih =>
    simp only [sidebar_loop_calls, List.filter_cons]
    by_cases h : isFile (pdf_path n) <;> simp [h, ih]

set_option maxRecDepth 4000 in
/-- C5: the presentation loop visits the resolved pages in strictly
ascending order; each page `n` is looked up at `./data/page_NNN.pdf`
(`n` zero-padded to three digits); pages whose file is missing are exactly
the ones dropped, and every remaining page is still processed, in order. -/
theorem presentation_loop_spec (isFile : String → Bool) (z : Rat) (s : Section) :
    List.Pairwise (· < ·) (get_page_numbers s) ∧
    image_loop_calls isFile z (get_page_numbers s)
      = ((get_page_numbers s).filter (fun n => isFile (pdf_path n))).map
          (fun n => ⟨pdf_path n, 0, z⟩) ∧
    (∀ n : Int, pdf_path n = "./data/" ++ ("page_" ++ pad3 n ++ ".pdf")) ∧
    (∀ m : Fin 1000, (pad3 ((m : Nat) : Int)).length = 3) :=
  ⟨pyRange_pairwise _ _, image_loop_calls_eq isFile z _, fun _ => rfl, by decide⟩

/-- C6: every renderer invocation made by the image loop and every text
extraction made by the sidebar loop passes in-file page index 0; for the
sidebar the page argument is simply left at `pymupdf_parse_page`'s default,
which is 0. -/
theorem presentation_calls_page_zero (isFile : String → Bool) (z : Rat)
    (pages : List Int) :
    (∀ c ∈ image_loop_calls isFile z pages, c.page_number = 0) ∧
    (∀ c ∈ sidebar_loop_calls isFile pages, c.page_number = 0) ∧
    (∀ (fs : String → Option PdfDoc) (p : String),
      pymupdf_parse_page fs p = pymupdf_parse_page fs p 0) := by
  refine ⟨?_, ?_, fun fs p => rfl⟩
  · intro c hc
    rw [image_loop_calls_eq] at hc
    obtain ⟨n, _, rfl⟩ := List.mem_map.mp hc
    rfl
  · intro c hc
    rw [sidebar_loop_calls_eq] at hc
    obtain ⟨n, _, rfl⟩ := List.mem_map.mp hc
    rfl

/-- Witness for C6: the single call made for page 5 carries page index 0. -/
theorem presentation_calls_page_zero_witness :
    RenderCall.page_number ⟨pdf_path 5, 0, 1⟩ = 0 :=
  (presentation_calls_page_zero (fun _ => true) 1 [5]).1 ⟨pdf_path 5, 0, 1⟩ (by decide)

/-- C7: `initialize_session_state` writes only the field `total_pages`, and
only when that field is absent; once the field is present a later call (with
any value) leaves the whole session state unchanged. -/
theorem initialize_session_state_frame (st : SessionState) (v : Int) :
    (∀ k, k ≠ "total_pages" →
      List.lookup k (initialize_session_state st v) = List.lookup k st) ∧
    ((List.lookup "total_pages" st).isSome → initialize_session_state st v = st) ∧
    (∀ w, initialize_session_state (initialize_session_state st v) w
        = initialize_session_state st v) := by
  refine ⟨?_, ?_, ?_⟩
  · intro k hk
    unfold initialize_session_state
    split
    · rfl
    · exact lookup_append_single_ne st "total_pages" k v hk
  · intro h
    unfold initialize_session_state
    rw [if_pos h]
  · intro w
    by_cases h : (List.lookup "total_pages" st).isSome
    · rw [show initialize_session_state st v = st from by unfold initialize_session_state; rw [if_pos h]]
      unfold initialize_session_state
      rw [if_pos h]
    · rw [show initialize_session_state st v = st ++ [("total_pages", v)] from by unfold initialize_session_state; rw [if_neg h]]
      unfold initialize_session_state
      rw [if_pos (lookup_append_single_self st "total_pages" v)]

/-- Witness for C7 at the concrete state `[("x", 7)]` with value `3`. -/
theorem initialize_session_state_frame_witness :
    List.lookup "y" (initialize_session_state [("x", 7)] 3) = List.lookup "y" [("x", 7)] :=
  (initialize_session_state_frame [("x", 7)] 3).1 "y" (by decide)

/-- C9: the text returned by `pymupdf_parse_page` never exceeds 230000
characters: longer extracted text is silently truncated. -/
theorem pymupdf_parse_page_length_le (fs : String → Option PdfDoc)
    (p : String) (n : Int) : (pymupdf_parse_page fs p n).length ≤ 230000 := by
  cases h : fs p with
  | none => rw [pymupdf_parse_page_none n h]; exact Nat.zero_le _
  | some file =>
    rw [pymupdf_parse_page_some n h]
    split
    · exact Nat.zero_le _
    · rw [List.length_take]
      omega

/-- C10: the PDF wrappers return the empty string / empty byte string on
every failure path — open failure, out-of-range page number, and pixmap
conversion failure — instead of propagating the exception (in the embedding,
both functions are total). -/
theorem pymupdf_error_paths_return_empty (fs : String → Option PdfDoc)
    (p : String) (n : Int) (z : Rat) :
    (fs p = none →
      pymupdf_parse_page fs p n = [] ∧ pymupdf_render_page_as_image fs p n z = []) ∧
    (∀ doc, fs p = some doc → (n < 0 ∨ (doc.pages.length : Int) ≤ n) →
      pymupdf_parse_page fs p n = [] ∧ pymupdf_render_page_as_image fs p n z = []) ∧
    (∀ doc, fs p = some doc → 0 ≤ n → n < (doc.pages.length : Int) →
      (doc.pages.getD n.toNat default).pixmap z = none →
      pymupdf_render_page_as_image fs p n z = []) := by
  refine ⟨?_, ?_, ?_⟩
  · intro h
    exact ⟨pymupdf_parse_page_none n h, pymupdf_render_none n z h⟩
  · intro doc h hn
    rw [pymupdf_parse_page_some n h, pymupdf_render_some n z h, if_pos hn, if_pos hn]
    exact ⟨rfl, rfl⟩
  · intro doc h h0 hlt hpix
    rw [pymupdf_render_some n z h, if_neg (by omega), hpix]

/-- Witness for C10: an abstract file system where every open fails. -/
theorem pymupdf_error_paths_return_empty_witness :
    pymupdf_parse_page (fun _ => none) "a.pdf" 0 = [] ∧
    pymupdf_render_page_as_image (fun _ => none) "a.pdf" 0 1 = [] :=
  (pymupdf_error_paths_return_empty (fun _ => none) "a.pdf" 0 1).1 rfl

end Web
